import Mathlib

/-!
Verification of the automation job orchestration engine
(`src/keepers/automation_orchestrator.py`, `src/keepers/chainlink/keeper_manager.py`,
`src/keepers/gelato/gelato_manager.py`) against its natural-language specification.

The Python code is shallowly embedded: dictionaries become association lists,
datetimes become natural-number timestamps, Python ints become `Int`/`Nat`,
float arithmetic in the provider-score computation becomes `Rat`, and the
external chain/HTTP world is threaded explicitly (submitted transactions are
collected in logs so that "the adapter was invoked" is observable).
-/

namespace YieldFarm

/-- Mirrors `AutomationProvider` in `automation_orchestrator.py`. -/
inductive AutomationProvider where
  | chainlink
  | gelato
  | auto
deriving DecidableEq, Repr

/-- Mirrors the `AutomationJob` dataclass: a unified automation job
configuration.  `check_data` models the opaque bytes payload, timestamps are
naturals. -/
structure AutomationJob where
  name : String
  target_contract : String
  function_name : String
  check_data : List Nat
  gas_limit : Nat
  frequency : Nat
  max_fee : Nat
  priority : Nat := 1
  provider : AutomationProvider := AutomationProvider.auto
  active : Bool := true
  created_at : Option Nat := none
  last_execution : Option Nat := none
deriving DecidableEq, Repr

/-- Mirrors the `ExecutionMetrics` dataclass.  Counters are `Int`, as Python
integers are unbounded and signed. -/
structure ExecutionMetrics where
  total_executions : Int := 0
  successful_executions : Int := 0
  failed_executions : Int := 0
  total_gas_used : Int := 0
  total_fees_paid : Int := 0
  average_execution_time : Rat := 0
  last_execution_time : Option Nat := none
deriving DecidableEq, Repr

/-- Zero-initialized metrics, as created by `add_job` (`ExecutionMetrics()`). -/
def zeroMetrics : ExecutionMetrics := {}

/-- Base cost of the Chainlink provider (`provider_costs[CHAINLINK] = 20`). -/
def chainlinkCost : Nat := 20

/-- Base cost of the Gelato provider (`provider_costs[GELATO] = 25`). -/
def gelatoCost : Nat := 25

/-- Mirrors the Chainlink branch of `_select_best_provider`: the score is
accumulated exactly as the source does (cost term, reliability term, feature
term). -/
def chainlinkScore (job : AutomationJob) : Rat :=
  let score : Rat := 0
  let cost : Rat := (chainlinkCost : Rat) * (job.gas_limit : Rat)
  let score := score + max 0 (100 - cost / 1000)
  let score := score + 90
  let score := if job.frequency ≥ 3600 then score + 20 else score
  score

/-- Mirrors the Gelato branch of `_select_best_provider`: cost term,
reliability term, frequency feature term, priority term. -/
def gelatoScore (job : AutomationJob) : Rat :=
  let score : Rat := 0
  let cost : Rat := (gelatoCost : Rat) * (job.gas_limit : Rat)
  let score := score + max 0 (100 - cost / 1000)
  let score := score + 85
  let score := if job.frequency < 3600 then score + 25 else score
  let score := if job.priority ≥ 2 then score + 15 else score
  score

/-- Mirrors Python's `max(scores.keys(), key=lambda k: scores[k])` over an
insertion-ordered candidate list: the current best is replaced only by a
strictly greater score, so the earliest-inserted candidate wins ties. -/
def pyArgmax (p : AutomationProvider) (s : Rat) :
    List (AutomationProvider × Rat) → AutomationProvider
  | [] => p
  | (q, t) :: rest => if s < t then pyArgmax q t rest else pyArgmax p s rest

/-- Mirrors `_select_best_provider`: scores are inserted Chainlink first, then
Gelato, each only when the corresponding manager is initialized; an empty score
dictionary raises `ValueError("No automation providers available")`. -/
def selectBestProvider (hasChainlink hasGelato : Bool) (job : AutomationJob) :
    Except String AutomationProvider :=
  let scores : List (AutomationProvider × Rat) :=
    (if hasChainlink then [(AutomationProvider.chainlink, chainlinkScore job)] else []) ++
    (if hasGelato then [(AutomationProvider.gelato, gelatoScore job)] else [])
  match scores with
  | [] => Except.error "No automation providers available"
  | (p, s) :: rest => Except.ok (pyArgmax p s rest)

/-- Job used in the first determinism example of the spec:
gas_budget 500000, frequency 86400 (daily), priority medium. -/
def dailyRebalanceJob : AutomationJob :=
  { name := "vault_rebalance", target_contract := "0xV", function_name := "rebalance",
    check_data := [], gas_limit := 500000, frequency := 86400, max_fee := 100000000000000000,
    priority := 2 }

/-- Job used in the second determinism example of the spec:
gas_budget 300000, frequency 1800, priority high. -/
def frequentHarvestJob : AutomationJob :=
  { name := "yield_harvest", target_contract := "0xV", function_name := "harvestYield",
    check_data := [], gas_limit := 300000, frequency := 1800, max_fee := 50000000000000000,
    priority := 3 }

lemma chainlinkScore_closed (job : AutomationJob) :
    chainlinkScore job =
      max 0 (100 - (20 * (job.gas_limit : Rat)) / 1000) + 90 +
        (if job.frequency ≥ 3600 then (20 : Rat) else 0) := by
  simp only [chainlinkScore, chainlinkCost]
  split <;> push_cast <;> ring

lemma gelatoScore_closed (job : AutomationJob) :
    gelatoScore job =
      max 0 (100 - (25 * (job.gas_limit : Rat)) / 1000) + 85 +
        (if job.frequency < 3600 then (25 : Rat) else 0) +
        (if job.priority ≥ 2 then (15 : Rat) else 0) := by
  simp only [gelatoScore, gelatoCost]
  split <;> split <;> push_cast <;> ring

lemma chainlinkScore_daily : chainlinkScore dailyRebalanceJob = 110 := by
  norm_num [chainlinkScore_closed, dailyRebalanceJob]

lemma gelatoScore_daily : gelatoScore dailyRebalanceJob = 100 := by
  norm_num [gelatoScore_closed, dailyRebalanceJob]

lemma chainlinkScore_frequent : chainlinkScore frequentHarvestJob = 90 := by
  norm_num [chainlinkScore_closed, frequentHarvestJob]

lemma gelatoScore_frequent : gelatoScore frequentHarvestJob = 125 := by
  norm_num [gelatoScore_closed, frequentHarvestJob]

/-- C1: with both adapters initialized and the requested provider "auto", each
adapter's score equals `max(0, 100 − cost_per_gas_unit·gas_budget/1000) +
base_reliability + feature_bonus` (keeper: cost 20, reliability 90, +20 when
frequency ≥ 3600; relay: cost 25, reliability 85, +25 when frequency < 3600
plus +15 when priority ≥ medium), and the highest-scoring adapter wins: for
gas 500000 / frequency 86400 / medium priority the keeper scores 110 against
the relay's 100 and is selected, while for gas 300000 / frequency 1800 / high
priority the keeper scores 90 against the relay's 125 and the relay is
selected. -/
theorem provider_selection_score_formula :
    (∀ job : AutomationJob,
      chainlinkScore job =
        max 0 (100 - (20 * (job.gas_limit : Rat)) / 1000) + 90 +
          (if job.frequency ≥ 3600 then (20 : Rat) else 0)) ∧
    (∀ job : AutomationJob,
      gelatoScore job =
        max 0 (100 - (25 * (job.gas_limit : Rat)) / 1000) + 85 +
          (if job.frequency < 3600 then (25 : Rat) else 0) +
          (if job.priority ≥ 2 then (15 : Rat) else 0)) ∧
    chainlinkScore dailyRebalanceJob = 110 ∧
    gelatoScore dailyRebalanceJob = 100 ∧
    selectBestProvider true true dailyRebalanceJob =
      Except.ok AutomationProvider.chainlink ∧
    chainlinkScore frequentHarvestJob = 90 ∧
    gelatoScore frequentHarvestJob = 125 ∧
    selectBestProvider true true frequentHarvestJob =
      Except.ok AutomationProvider.gelato := by
  refine ⟨chainlinkScore_closed, gelatoScore_closed, chainlinkScore_daily,
    gelatoScore_daily, ?_, chainlinkScore_frequent, gelatoScore_frequent, ?_⟩
  · simp only [selectBestProvider, if_pos, List.singleton_append, pyArgmax,
      chainlinkScore_daily, gelatoScore_daily]
    norm_num
  · simp only [selectBestProvider, if_pos, List.singleton_append, pyArgmax,
      chainlinkScore_frequent, gelatoScore_frequent]
    norm_num

/-- Truncation of a rational toward zero, mirroring Python's `int(...)`
conversion applied to a float. -/
def pyInt (q : Rat) : Int := if q < 0 then -⌊-q⌋ else ⌊q⌋

/-- Per-job entry of the Chainlink manager's `get_job_status()` dictionary, as
consumed by `_update_metrics_from_chainlink` (only the `last_execution` field
is read). -/
structure ChainlinkJobStatus where
  last_execution : Option Nat
deriving DecidableEq, Repr

/-- Per-task entry of the Gelato manager's `get_task_summary()['tasks']`
dictionary, as consumed by `_update_metrics_from_gelato`. -/
structure GelatoTaskInfo where
  execution_count : Nat
  success_rate : Rat
  last_execution : Option Nat
deriving DecidableEq, Repr

/-- Mirrors the test `not metrics.last_execution_time or last_exec >
metrics.last_execution_time` in `_update_metrics_from_chainlink` (a `None`
recorded time is falsy). -/
def newerThanRecorded (recorded : Option Nat) (t : Nat) : Bool :=
  match recorded with
  | none => true
  | some r => r < t

/-- Mirrors the per-job body of `_update_metrics_from_chainlink`: when the
status carries a `last_execution` newer than the recorded one (or none is
recorded yet), the last-execution time is advanced and both the total and the
successful counters are incremented ("assume success for now"). -/
def updateMetricsFromChainlink (m : ExecutionMetrics) (s : ChainlinkJobStatus) :
    ExecutionMetrics :=
  match s.last_execution with
  | none => m
  | some lastExec =>
    if newerThanRecorded m.last_execution_time lastExec then
      { m with
        last_execution_time := some lastExec
        total_executions := m.total_executions + 1
        successful_executions := m.successful_executions + 1 }
    else m

/-- Mirrors the per-job body of `_update_metrics_from_gelato`: when the
reported `execution_count` exceeds the stored total, the total is set to it,
the successful counter is recomputed as `int(execution_count * success_rate)`
and the failed counter as the remainder; the last-execution time is then
overwritten whenever the summary carries one. -/
def updateMetricsFromGelato (m : ExecutionMetrics) (t : GelatoTaskInfo) :
    ExecutionMetrics :=
  let m1 :=
    if m.total_executions < (t.execution_count : Int) then
      let succ := pyInt ((t.execution_count : Rat) * t.success_rate)
      { m with
        total_executions := (t.execution_count : Int)
        successful_executions := succ
        failed_executions := (t.execution_count : Int) - succ }
    else m
  match t.last_execution with
  | some lastExec => { m1 with last_execution_time := some lastExec }
  | none => m1

/-- One metrics-update step of a polling cycle of `_collect_metrics`: either a
Chainlink status update or a Gelato summary update for the job. -/
inductive MetricsStep where
  | chainlink (s : ChainlinkJobStatus)
  | gelato (t : GelatoTaskInfo)
deriving DecidableEq, Repr

/-- Application of one metrics-update step to a job's metrics. -/
def applyStep (m : ExecutionMetrics) : MetricsStep → ExecutionMetrics
  | MetricsStep.chainlink s => updateMetricsFromChainlink m s
  | MetricsStep.gelato t => updateMetricsFromGelato m t

/-- Application of a sequence of metrics-update steps (polling cycles) in
order. -/
def applySteps (m : ExecutionMetrics) (steps : List MetricsStep) : ExecutionMetrics :=
  steps.foldl applyStep m

lemma applyStep_total_mono (m : ExecutionMetrics) (step : MetricsStep) :
    m.total_executions ≤ (applyStep m step).total_executions := by
  cases step with
  | chainlink s =>
    simp only [applyStep, updateMetricsFromChainlink]
    cases s.last_execution with
    | none => exact le_refl _
    | some lastExec =>
      dsimp only
      split
      · exact Int.le_add_one (le_refl _)
      · exact le_refl _
  | gelato t =>
    simp only [applyStep, updateMetricsFromGelato]
    cases t.last_execution with
    | none =>
      dsimp only
      split
      · exact le_of_lt (by assumption)
      · exact le_refl _
    | some lastExec =>
      dsimp only
      split
      · exact le_of_lt (by assumption)
      · exact le_refl _

lemma applySteps_total_mono (m : ExecutionMetrics) (steps : List MetricsStep) :
    m.total_executions ≤ (applySteps m steps).total_executions := by
  induction steps generalizing m with
  | nil => exact le_refl _
  | cons step rest ih =>
    exact le_trans (applyStep_total_mono m step) (ih (applyStep m step))

/-- C4: the `total_executions` counter of a job's metrics is monotonically
non-decreasing: neither the Chainlink status update nor the Gelato summary
update ever decreases it, in one step or across any sequence of polling
cycles. -/
theorem total_executions_monotone :
    (∀ (m : ExecutionMetrics) (step : MetricsStep),
      m.total_executions ≤ (applyStep m step).total_executions) ∧
    (∀ (m : ExecutionMetrics) (steps : List MetricsStep),
      m.total_executions ≤ (applySteps m steps).total_executions) :=
  ⟨applyStep_total_mono, applySteps_total_mono⟩

/-- Counter-consistency invariant of `ExecutionMetrics` claimed by the spec. -/
def MetricsInv (m : ExecutionMetrics) : Prop :=
  m.successful_executions + m.failed_executions ≤ m.total_executions

lemma applyStep_inv (m : ExecutionMetrics) (step : MetricsStep)
    (h : MetricsInv m) : MetricsInv (applyStep m step) := by
  cases step with
  | chainlink s =>
    simp only [applyStep, updateMetricsFromChainlink]
    cases s.last_execution with
    | none => exact h
    | some lastExec =>
      dsimp only
      split
      · simp only [MetricsInv] at h ⊢
        omega
      · exact h
  | gelato t =>
    simp only [applyStep, updateMetricsFromGelato]
    have key : MetricsInv
        (if m.total_executions < (t.execution_count : Int) then
          { m with
            total_executions := (t.execution_count : Int)
            successful_executions := pyInt ((t.execution_count : Rat) * t.success_rate)
            failed_executions :=
              (t.execution_count : Int) - pyInt ((t.execution_count : Rat) * t.success_rate) }
        else m) := by
      split
      · simp only [MetricsInv]
        omega
      · exact h
    cases t.last_execution with
    | none => exact key
    | some lastExec => exact key

lemma applySteps_inv (m : ExecutionMetrics) (steps : List MetricsStep)
    (h : MetricsInv m) : MetricsInv (applySteps m steps) := by
  induction steps generalizing m with
  | nil => exact h
  | cons step rest ih => exact ih (applyStep m step) (applyStep_inv m step h)

/-- C7: in every state of a job's metrics reachable from the zero-initialized
metrics of `add_job` by Chainlink and Gelato metrics-update steps,
`successful_executions + failed_executions ≤ total_executions` holds. -/
theorem metrics_counter_invariant (steps : List MetricsStep) :
    (applySteps zeroMetrics steps).successful_executions +
      (applySteps zeroMetrics steps).failed_executions ≤
      (applySteps zeroMetrics steps).total_executions :=
  applySteps_inv zeroMetrics steps (by simp [MetricsInv, zeroMetrics])

/-- Insertion into a Python-dict model: replace the binding in place when the
key exists, append otherwise (Python dicts keep insertion order and unique
keys). -/
def upsert (k : String) (v : α) : List (String × α) → List (String × α)
  | [] => [(k, v)]
  | (k', v') :: rest => if k' = k then (k, v) :: rest else (k', v') :: upsert k v rest

/-- Deletion from a Python-dict model (`del d[k]`). -/
def removeKey (k : String) : List (String × α) → List (String × α)
  | [] => []
  | (k', v) :: rest => if k' = k then rest else (k', v) :: removeKey k rest

/-- Lookup in a Python-dict model (`d.get(k)` / `d[k]`). -/
def lookupKey (k : String) : List (String × α) → Option α
  | [] => none
  | (k', v) :: rest => if k' = k then some v else lookupKey k rest

lemma lookupKey_upsert (k : String) (v : α) (l : List (String × α)) :
    lookupKey k (upsert k v l) = some v := by
  induction l with
  | nil => simp [upsert, lookupKey]
  | cons p rest ih =>
    by_cases h : p.1 = k
    · simp [upsert, lookupKey, h]
    · simpa [upsert, lookupKey, h] using ih

/-- Mirrors the `KeeperJob` dataclass of `keeper_manager.py`. -/
structure KeeperJob where
  name : String
  contract_address : String
  function_name : String
  check_data : List Nat
  gas_limit : Nat
  trigger_condition : String
  frequency : Nat
  last_execution : Option Nat := none
  active : Bool := true
deriving DecidableEq, Repr

/-- State of a `ChainlinkKeeperManager` relevant to the orchestrator: its job
dictionary, plus a log of `remove_job` invocations so that "the adapter's
cancel operation was invoked" is observable in the model. -/
structure ChainlinkManagerState where
  jobs : List (String × KeeperJob) := []
  removeJobLog : List String := []
deriving DecidableEq, Repr

/-- Mirrors `ChainlinkKeeperManager.remove_job`: deletes the job when present
and never raises.  The invocation itself is recorded in the log. -/
def removeKeeperJob (cl : ChainlinkManagerState) (name : String) :
    ChainlinkManagerState :=
  { cl with
    removeJobLog := cl.removeJobLog ++ [name]
    jobs := if (lookupKey name cl.jobs).isSome then removeKey name cl.jobs else cl.jobs }

/-- Mirrors the `GelatoTask` dataclass of `gelato_manager.py`. -/
structure GelatoTask where
  name : String
  target_contract : String
  function_selector : String
  resolver_contract : String
  resolver_data : List Nat
  interval : Nat
  max_fee : Nat
  active : Bool := true
  task_id : Option String := none
  created_at : Option Nat := none
  last_execution : Option Nat := none
deriving DecidableEq, Repr

/-- Mirrors the `TaskExecution` dataclass of `gelato_manager.py`. -/
structure TaskExecution where
  task_id : String
  execution_time : Nat
  gas_used : Nat
  fee_paid : Nat
  success : Bool
deriving DecidableEq, Repr

/-- State of a `GelatoManager` relevant to the orchestrator: its task
dictionary, the recorded executions, and a log of the task ids for which a
cancellation transaction has been signed and sent (each `cancel_task` call
that reaches the transaction submits exactly one). -/
structure GelatoManagerState where
  tasks : List (String × GelatoTask) := []
  executions : List TaskExecution := []
  cancelTxLog : List String := []
deriving DecidableEq, Repr

/-- Mirrors `GelatoManager.cancel_task`: raises when the task is unknown or
has no task id (no transaction is sent in either case); otherwise submits one
cancellation transaction and marks the task inactive. -/
def GelatoManagerState.cancelTask (g : GelatoManagerState) (name : String) :
    GelatoManagerState × Option String :=
  match lookupKey name g.tasks with
  | none => (g, some ("Task " ++ name ++ " not found"))
  | some task =>
    match task.task_id with
    | none => (g, some ("Task " ++ name ++ " has no task ID"))
    | some tid =>
      ({ g with
          tasks := upsert name { task with active := false } g.tasks
          cancelTxLog := g.cancelTxLog ++ [tid] }, none)

/-- State of an `AutomationOrchestrator`: optional provider managers (a `none`
manager mirrors a provider that was never initialized) and the three job
dictionaries. -/
structure OrchState where
  chainlink : Option ChainlinkManagerState := none
  gelato : Option GelatoManagerState := none
  jobs : List (String × AutomationJob) := []
  assignments : List (String × AutomationProvider) := []
  metrics : List (String × ExecutionMetrics) := []
deriving DecidableEq, Repr

/-- Mirrors `AutomationOrchestrator.add_job`: metrics are zero-initialized
first (overwriting any existing entry), then the provider is resolved by
scoring when the job requests "auto" (which may raise), and finally the job
and its assignment are stored (overwriting any job of the same name).  The
returned option is the raised error, if any; note that the metrics reset has
already happened when scoring raises. -/
def addJob (st : OrchState) (job : AutomationJob) : OrchState × Option String :=
  let st1 := { st with metrics := upsert job.name zeroMetrics st.metrics }
  let resolved : Except String AutomationProvider :=
    if job.provider = AutomationProvider.auto then
      selectBestProvider st.chainlink.isSome st.gelato.isSome job
    else Except.ok job.provider
  match resolved with
  | Except.error e => (st1, some e)
  | Except.ok p =>
    let job1 := { job with provider := p }
    ({ st1 with
        jobs := upsert job.name job1 st1.jobs
        assignments := upsert job.name p st1.assignments }, none)

/-- Mirrors `AutomationOrchestrator.cancel_job`: looks up the job (raising
when absent), dispatches on the assigned provider — invoking the adapter's
cancel operation unconditionally, with no check of the job's `active` flag —
and marks the job inactive; adapter errors propagate and leave the job
untouched. -/
def cancelJob (st : OrchState) (name : String) : OrchState × Option String :=
  match lookupKey name st.jobs with
  | none => (st, some ("Job " ++ name ++ " not found"))
  | some job =>
    match lookupKey name st.assignments with
    | none => (st, some ("KeyError: " ++ name))
    | some AutomationProvider.chainlink =>
      match st.chainlink with
      | none => (st, some "AttributeError: chainlink manager is None")
      | some cl =>
        ({ st with
            chainlink := some (removeKeeperJob cl name)
            jobs := upsert name { job with active := false } st.jobs }, none)
    | some AutomationProvider.gelato =>
      match st.gelato with
      | none => (st, some "AttributeError: gelato manager is None")
      | some g =>
        match g.cancelTask name with
        | (_, some e) => (st, some e)
        | (g1, none) =>
          ({ st with
              gelato := some g1
              jobs := upsert name { job with active := false } st.jobs }, none)
    | some AutomationProvider.auto =>
      ({ st with jobs := upsert name { job with active := false } st.jobs }, none)

/-- Mirrors `_update_metrics_from_chainlink` at the orchestrator level: every
entry of the Chainlink status dictionary whose job name has metrics is folded
into the metrics dictionary. -/
def updateMetricsFromChainlinkStatus (st : OrchState)
    (status : List (String × ChainlinkJobStatus)) : OrchState :=
  { st with
    metrics := status.foldl (fun ms p =>
      match lookupKey p.1 ms with
      | some m => upsert p.1 (updateMetricsFromChainlink m p.2) ms
      | none => ms) st.metrics }

/-- C2 (amended): adding a job whose requested provider is explicit assigns
that provider directly, without invoking the scoring algorithm — the stored
job and assignment carry the requested provider unchanged, whatever the
adapter availability — but the add never fails: `add_job` performs no
availability check, so no `ProviderNotAvailable` error exists for an explicit
provider whose adapter was never initialized. -/
theorem add_job_explicit_provider_direct (st : OrchState) (job : AutomationJob)
    (h : job.provider ≠ AutomationProvider.auto) :
    (addJob st job).2 = none ∧
    lookupKey job.name (addJob st job).1.assignments = some job.provider ∧
    lookupKey job.name (addJob st job).1.jobs = some job := by
  have h1 : (addJob st job).2 = none := by
    simp only [addJob, if_neg h]
  have h2 : lookupKey job.name (addJob st job).1.assignments = some job.provider := by
    simp only [addJob, if_neg h]
    exact lookupKey_upsert _ _ _
  have h3 : lookupKey job.name (addJob st job).1.jobs = some job := by
    simp only [addJob, if_neg h]
    have hjob : { job with provider := job.provider } = job := rfl
    rw [hjob]
    exact lookupKey_upsert _ _ _
  exact ⟨h1, h2, h3⟩

/-- Orchestrator state used in the C2 theorems: neither provider manager was
ever initialized. -/
def noProviderState : OrchState := {}

/-- Job with an explicitly requested Chainlink provider, used in the C2
theorems. -/
def explicitChainlinkJob : AutomationJob :=
  { name := "explicit_rebalance", target_contract := "0xA", function_name := "rebalance",
    check_data := [], gas_limit := 400000, frequency := 7200, max_fee := 1000,
    priority := 2, provider := AutomationProvider.chainlink }

/-- C2 counterexample: with no adapter initialized at all, adding a job that
explicitly requests the Chainlink provider succeeds (`add_job` raises
nothing), and the uninitialized provider is assigned — refuting the claim
that the add fails with `ProviderNotAvailable` when the explicitly requested
provider's adapter was never initialized. -/
theorem add_job_explicit_provider_no_availability_check :
    noProviderState.chainlink = none ∧
    (addJob noProviderState explicitChainlinkJob).2 = none ∧
    lookupKey "explicit_rebalance" (addJob noProviderState explicitChainlinkJob).1.assignments
      = some AutomationProvider.chainlink :=
  ⟨rfl, rfl, rfl⟩

/-- C2 witness: the amended theorem applied to a concrete state and job. -/
theorem add_job_explicit_provider_direct_witness :
    (addJob noProviderState explicitChainlinkJob).2 = none ∧
    lookupKey "explicit_rebalance" (addJob noProviderState explicitChainlinkJob).1.assignments
      = some AutomationProvider.chainlink ∧
    lookupKey "explicit_rebalance" (addJob noProviderState explicitChainlinkJob).1.jobs
      = some explicitChainlinkJob :=
  add_job_explicit_provider_direct noProviderState explicitChainlinkJob (by decide)

/-- C3 (amended): `add_job` performs no duplicate-name check: re-adding a job
whose name already exists in the registry does not fail with `DuplicateJob` —
the metrics of that name are unconditionally reset to zero, and (whenever
provider resolution succeeds, e.g. for an explicit provider) the stored job
record is silently replaced by the new job and the add reports no error. -/
theorem add_job_duplicate_overwrites (st : OrchState) (job job0 : AutomationJob)
    (hdup : lookupKey job.name st.jobs = some job0)
    (hexp : job.provider ≠ AutomationProvider.auto) :
    lookupKey job.name (addJob st job).1.metrics = some zeroMetrics ∧
    (addJob st job).2 = none ∧
    lookupKey job.name (addJob st job).1.jobs = some job := by
  refine ⟨?_, (add_job_explicit_provider_direct st job hexp).1,
    (add_job_explicit_provider_direct st job hexp).2.2⟩
  simp only [addJob, if_neg hexp]
  exact lookupKey_upsert _ _ _

/-- First job added in the C3 counterexample scenario. -/
def harvestJobV1 : AutomationJob :=
  { name := "harvest", target_contract := "0xB", function_name := "harvestYield",
    check_data := [], gas_limit := 300000, frequency := 3600, max_fee := 500,
    priority := 3, provider := AutomationProvider.chainlink }

/-- Re-added job of the same name in the C3 counterexample scenario. -/
def harvestJobV2 : AutomationJob :=
  { name := "harvest", target_contract := "0xB", function_name := "harvestYield",
    check_data := [], gas_limit := 350000, frequency := 1800, max_fee := 500,
    priority := 3, provider := AutomationProvider.chainlink }

/-- State reached by adding `harvestJobV1` to an empty orchestrator and
observing one successful execution through a Chainlink polling cycle. -/
def harvestStateWithHistory : OrchState :=
  updateMetricsFromChainlinkStatus (addJob {} harvestJobV1).1
    [("harvest", { last_execution := some 1700000000 })]

/-- C3 counterexample: in a state where job "harvest" exists with one recorded
execution, re-adding a job named "harvest" does not fail with `DuplicateJob`
(no error is reported), and it modifies the existing record: the metrics are
reset from one recorded execution back to zero and the stored job is replaced
by the new definition. -/
theorem add_job_duplicate_not_rejected :
    lookupKey "harvest" harvestStateWithHistory.metrics =
      some { total_executions := 1, successful_executions := 1,
             last_execution_time := some 1700000000 } ∧
    (addJob harvestStateWithHistory harvestJobV2).2 = none ∧
    lookupKey "harvest" (addJob harvestStateWithHistory harvestJobV2).1.metrics
      = some zeroMetrics ∧
    lookupKey "harvest" (addJob harvestStateWithHistory harvestJobV2).1.jobs
      = some harvestJobV2 :=
  ⟨rfl, rfl, rfl, rfl⟩

/-- C3 witness: the amended theorem applied to the concrete duplicate-add
scenario. -/
theorem add_job_duplicate_overwrites_witness :
    lookupKey "harvest" (addJob harvestStateWithHistory harvestJobV2).1.metrics
      = some zeroMetrics ∧
    (addJob harvestStateWithHistory harvestJobV2).2 = none ∧
    lookupKey "harvest" (addJob harvestStateWithHistory harvestJobV2).1.jobs
      = some harvestJobV2 :=
  add_job_duplicate_overwrites harvestStateWithHistory harvestJobV2 harvestJobV1
    rfl (by decide)

/-- C6 (amended): `cancel_job` has no guard on the job's `active` flag, so
cancelling an already-inactive job raises no error and leaves the job
inactive, but it re-invokes the assigned adapter's cancel operation: on the
Gelato path a further cancellation transaction is submitted for the task's id,
and on the Chainlink path `remove_job` is called again (harmlessly, since the
job was already deleted from the manager's dictionary). -/
theorem cancel_job_inactive_reinvokes_adapter :
    (∀ (st : OrchState) (name : String) (job : AutomationJob)
        (g : GelatoManagerState) (task : GelatoTask) (tid : String),
      lookupKey name st.jobs = some job →
      job.active = false →
      lookupKey name st.assignments = some AutomationProvider.gelato →
      st.gelato = some g →
      lookupKey name g.tasks = some task →
      task.task_id = some tid →
      (cancelJob st name).2 = none ∧
      (cancelJob st name).1.gelato.map GelatoManagerState.cancelTxLog
        = some (g.cancelTxLog ++ [tid]) ∧
      (lookupKey name (cancelJob st name).1.jobs).map AutomationJob.active = some false) ∧
    (∀ (st : OrchState) (name : String) (job : AutomationJob)
        (cl : ChainlinkManagerState),
      lookupKey name st.jobs = some job →
      job.active = false →
      lookupKey name st.assignments = some AutomationProvider.chainlink →
      st.chainlink = some cl →
      (cancelJob st name).2 = none ∧
      (cancelJob st name).1.chainlink.map ChainlinkManagerState.removeJobLog
        = some (cl.removeJobLog ++ [name]) ∧
      (lookupKey name (cancelJob st name).1.jobs).map AutomationJob.active = some false) := by
  constructor
  · intro st name job g task tid hjob _hact hassign hg htask htid
    simp only [cancelJob, hjob, hassign, hg, GelatoManagerState.cancelTask, htask, htid]
    exact ⟨trivial, rfl, by rw [lookupKey_upsert]; rfl⟩
  · intro st name job cl hjob _hact hassign hcl
    simp only [cancelJob, hjob, hassign, hcl, removeKeeperJob]
    exact ⟨trivial, rfl, by rw [lookupKey_upsert]; rfl⟩

/-- Gelato task that has already been deployed (it carries a task id), used in
the C6 scenario. -/
def deployedGelatoTask : GelatoTask :=
  { name := "freq_harvest", target_contract := "0xC", function_selector := "harvestYield()",
    resolver_contract := "0xC", resolver_data := [], interval := 1800, max_fee := 700,
    task_id := some "task_42" }

/-- Orchestrator job assigned to Gelato, used in the C6 scenario. -/
def gelatoAssignedJob : AutomationJob :=
  { name := "freq_harvest", target_contract := "0xC", function_name := "harvestYield",
    check_data := [], gas_limit := 250000, frequency := 1800, max_fee := 700,
    priority := 3, provider := AutomationProvider.gelato }

/-- Orchestrator state with one active, deployed Gelato job, used in the C6
scenario. -/
def deployedGelatoState : OrchState :=
  { gelato := some { tasks := [("freq_harvest", deployedGelatoTask)] },
    jobs := [("freq_harvest", gelatoAssignedJob)],
    assignments := [("freq_harvest", AutomationProvider.gelato)],
    metrics := [("freq_harvest", zeroMetrics)] }

/-- State after the first `cancel_job("freq_harvest")`: the job is inactive
and one cancellation transaction has been submitted. -/
def cancelledGelatoState : OrchState := (cancelJob deployedGelatoState "freq_harvest").1

/-- C6 counterexample: after a first cancellation the job "freq_harvest" is
already inactive and exactly one cancellation transaction has been submitted;
calling `cancel_job` again raises no error but submits a second cancellation
transaction for the same task id — the adapter's cancel operation is invoked
a second time, refuting the claimed no-op. -/
theorem cancel_job_inactive_not_noop :
    (lookupKey "freq_harvest" cancelledGelatoState.jobs).map AutomationJob.active
      = some false ∧
    cancelledGelatoState.gelato.map GelatoManagerState.cancelTxLog = some ["task_42"] ∧
    (cancelJob cancelledGelatoState "freq_harvest").2 = none ∧
    (cancelJob cancelledGelatoState "freq_harvest").1.gelato.map
        GelatoManagerState.cancelTxLog = some ["task_42", "task_42"] :=
  ⟨rfl, rfl, rfl, rfl⟩

/-- C6 witness: the amended theorem applied to the concrete twice-cancelled
scenario. -/
theorem cancel_job_inactive_reinvokes_adapter_witness :
    (cancelJob cancelledGelatoState "freq_harvest").2 = none ∧
    (cancelJob cancelledGelatoState "freq_harvest").1.gelato.map
        GelatoManagerState.cancelTxLog = some (["task_42"] ++ ["task_42"]) ∧
    (lookupKey "freq_harvest" (cancelJob cancelledGelatoState "freq_harvest").1.jobs).map
        AutomationJob.active = some false :=
  cancel_job_inactive_reinvokes_adapter.1 cancelledGelatoState "freq_harvest"
    { gelatoAssignedJob with active := false } { tasks := [("freq_harvest",
      { deployedGelatoTask with active := false })], cancelTxLog := ["task_42"] }
    { deployedGelatoTask with active := false } "task_42"
    rfl rfl rfl rfl rfl rfl

/-- One entry of the execution-history array returned by the relay's status
endpoint, as read by `_process_task_status` (`timestamp`, `gasUsed`,
`feePaid`, `success`). -/
structure RelayExecution where
  timestamp : Nat
  gasUsed : Nat
  feePaid : Nat
  success : Bool
deriving DecidableEq, Repr

/-- Mirrors the newness test of `_process_task_status`:
`not task.last_execution or execution_time > task.last_execution`. -/
def isNewExecution (last : Option Nat) (t : Nat) : Bool :=
  match last with
  | none => true
  | some l => l < t

/-- Mirrors the loop body of `GelatoManager._process_task_status` for one
status poll: each history entry strictly newer than the current last-seen
execution timestamp is turned into a `TaskExecution` record and advances the
last-seen timestamp; all other entries are skipped.  Returns the final
last-seen timestamp and the records appended to `self.executions`, in
order. -/
def processTaskStatus (tid : String) (last : Option Nat) :
    List RelayExecution → Option Nat × List TaskExecution
  | [] => (last, [])
  | e :: rest =>
    if isNewExecution last e.timestamp then
      let res := processTaskStatus tid (some e.timestamp) rest
      (res.1,
        { task_id := tid, execution_time := e.timestamp, gas_used := e.gasUsed,
          fee_paid := e.feePaid, success := e.success } :: res.2)
    else processTaskStatus tid last rest

/-- Last-seen timestamp after a poll: the timestamp of the last appended
record, or the incoming value when nothing was appended. -/
def finalLastSeen (recs : List TaskExecution) (last : Option Nat) : Option Nat :=
  recs.foldl (fun _ r => some r.execution_time) last

lemma isNewExecution_trans {last : Option Nat} {t u : Nat}
    (h : isNewExecution last t = true) (htu : t < u) :
    isNewExecution last u = true := by
  cases last with
  | none => rfl
  | some l =>
    simp only [isNewExecution, decide_eq_true_eq] at h ⊢
    omega

lemma processTaskStatus_all_new (tid : String) (hist : List RelayExecution) :
    ∀ last, ∀ r ∈ (processTaskStatus tid last hist).2,
      isNewExecution last r.execution_time = true := by
  induction hist with
  | nil => intro last r hr; simp [processTaskStatus] at hr
  | cons e rest ih =>
    intro last r hr
    simp only [processTaskStatus] at hr
    by_cases hnew : isNewExecution last e.timestamp = true
    · rw [if_pos hnew] at hr
      rcases List.mem_cons.mp hr with heq | hmem
      · rw [heq]; exact hnew
      · have h2 := ih (some e.timestamp) r hmem
        simp only [isNewExecution, decide_eq_true_eq] at h2
        exact isNewExecution_trans hnew h2
    · rw [if_neg hnew] at hr
      exact ih last r hr

lemma processTaskStatus_chain (tid : String) (hist : List RelayExecution) :
    ∀ last, List.Chain' (fun a b => a.execution_time < b.execution_time)
      (processTaskStatus tid last hist).2 := by
  induction hist with
  | nil => intro last; simp [processTaskStatus]
  | cons e rest ih =>
    intro last
    simp only [processTaskStatus]
    by_cases hnew : isNewExecution last e.timestamp = true
    · rw [if_pos hnew]
      refine List.chain'_cons'.mpr ⟨?_, ih (some e.timestamp)⟩
      intro y hy
      have hmem : y ∈ (processTaskStatus tid (some e.timestamp) rest).2 := by
        cases hlist : (processTaskStatus tid (some e.timestamp) rest).2 with
        | nil => rw [hlist] at hy; simp at hy
        | cons a l =>
          rw [hlist] at hy
          simp only [List.head?_cons, Option.mem_def, Option.some.injEq] at hy
          rw [← hy]
          exact List.mem_cons_self a l
      have h2 := processTaskStatus_all_new tid rest (some e.timestamp) y hmem
      simpa only [isNewExecution, decide_eq_true_eq] using h2
    · rw [if_neg hnew]
      exact ih last

lemma processTaskStatus_complete (tid : String) (hist : List RelayExecution)
    (hsorted : hist.Pairwise (fun a b => a.timestamp ≤ b.timestamp)) :
    ∀ last, ∀ e ∈ hist, isNewExecution last e.timestamp = true →
      e.timestamp ∈ (processTaskStatus tid last hist).2.map TaskExecution.execution_time := by
  induction hist with
  | nil => intro last e he; simp at he
  | cons a rest ih =>
    rcases List.pairwise_cons.mp hsorted with ⟨hhead, hrest⟩
    intro last e he hnewe
    simp only [processTaskStatus]
    by_cases hnew : isNewExecution last a.timestamp = true
    · rw [if_pos hnew]
      simp only [List.map_cons, List.mem_cons]
      rcases List.mem_cons.mp he with heq | hmem
      · left; rw [heq]
      · by_cases hstill : isNewExecution (some a.timestamp) e.timestamp = true
        · right
          exact ih hrest (some a.timestamp) e hmem hstill
        · left
          simp only [isNewExecution, decide_eq_true_eq, Nat.not_lt] at hstill
          have := hhead e hmem
          omega
    · rw [if_neg hnew]
      rcases List.mem_cons.mp he with heq | hmem
      · exact absurd (heq ▸ hnewe) hnew
      · exact ih hrest last e hmem hnewe

lemma processTaskStatus_lastSeen (tid : String) (hist : List RelayExecution) :
    ∀ last, (processTaskStatus tid last hist).1 =
      finalLastSeen (processTaskStatus tid last hist).2 last := by
  induction hist with
  | nil => intro last; simp [processTaskStatus, finalLastSeen]
  | cons e rest ih =>
    intro last
    simp only [processTaskStatus]
    by_cases hnew : isNewExecution last e.timestamp = true
    · rw [if_pos hnew]
      dsimp only
      rw [ih (some e.timestamp)]
      simp [finalLastSeen]
    · rw [if_neg hnew]
      exact ih last

/-- C5: for a status poll whose execution history is in non-decreasing
timestamp order, `_process_task_status` appends one execution record per
history entry that is strictly newer than the task's (running) last-seen
execution timestamp: every appended record was strictly newer than the
incoming last-seen timestamp (entries at or below it are never re-recorded),
the appended timestamps are strictly increasing (no timestamp is recorded
twice), every history timestamp strictly newer than the last-seen value at
its processing point is recorded, and the task's last-seen timestamp is
updated to the last appended record's timestamp. -/
theorem process_task_status_diffs_history (tid : String) (last : Option Nat)
    (hist : List RelayExecution)
    (hsorted : hist.Pairwise (fun a b => a.timestamp ≤ b.timestamp)) :
    (∀ r ∈ (processTaskStatus tid last hist).2,
      isNewExecution last r.execution_time = true) ∧
    List.Chain' (fun a b => a.execution_time < b.execution_time)
      (processTaskStatus tid last hist).2 ∧
    (∀ e ∈ hist, isNewExecution last e.timestamp = true →
      e.timestamp ∈ (processTaskStatus tid last hist).2.map TaskExecution.execution_time) ∧
    (processTaskStatus tid last hist).1 =
      finalLastSeen (processTaskStatus tid last hist).2 last :=
  ⟨processTaskStatus_all_new tid hist last,
   processTaskStatus_chain tid hist last,
   processTaskStatus_complete tid hist hsorted last,
   processTaskStatus_lastSeen tid hist last⟩

/-- Sorted execution history used in the C5 witness: one stale entry (at or
below the last-seen timestamp 10), one fresh entry, a duplicate of it, and a
newer fresh entry. -/
def sampleHistory : List RelayExecution :=
  [{ timestamp := 5, gasUsed := 100, feePaid := 1, success := true },
   { timestamp := 12, gasUsed := 110, feePaid := 2, success := true },
   { timestamp := 12, gasUsed := 105, feePaid := 3, success := false },
   { timestamp := 15, gasUsed := 120, feePaid := 4, success := true }]

/-- C5 witness: the theorem applied to the concrete sorted history with
last-seen timestamp 10; only the entries at 12 and 15 are recorded, once
each, and the last-seen timestamp becomes 15. -/
theorem process_task_status_diffs_history_witness :
    sampleHistory.Pairwise (fun a b => a.timestamp ≤ b.timestamp) ∧
    ((∀ r ∈ (processTaskStatus "task_7" (some 10) sampleHistory).2,
        isNewExecution (some 10) r.execution_time = true) ∧
      List.Chain' (fun a b => a.execution_time < b.execution_time)
        (processTaskStatus "task_7" (some 10) sampleHistory).2 ∧
      (∀ e ∈ sampleHistory, isNewExecution (some 10) e.timestamp = true →
        e.timestamp ∈ (processTaskStatus "task_7" (some 10) sampleHistory).2.map
          TaskExecution.execution_time) ∧
      (processTaskStatus "task_7" (some 10) sampleHistory).1 =
        finalLastSeen (processTaskStatus "task_7" (some 10) sampleHistory).2 (some 10)) ∧
    (processTaskStatus "task_7" (some 10) sampleHistory).2.map
        TaskExecution.execution_time = [12, 15] ∧
    (processTaskStatus "task_7" (some 10) sampleHistory).1 = some 15 :=
  ⟨by decide,
   process_task_status_diffs_history "task_7" (some 10) sampleHistory (by decide),
   by decide, by decide⟩

/-- Transaction receipt returned by the chain after confirmation; only its
identity matters to the embedding, since the source's receipt parser is a
placeholder. -/
structure TxReceipt where
  txNonce : Nat
deriving DecidableEq, Repr

/-- Mirrors `_extract_upkeep_id_from_receipt`: the source's parser is a
placeholder that ignores the receipt and returns 1. -/
def extractUpkeepIdFromReceipt (receipt : TxReceipt) : Nat :=
  let _ := receipt
  1

/-- External chain facts read by `register_upkeep`: the LINK balance of the
manager's account, the current gas price and the account nonce. -/
structure ChainState where
  linkBalance : Nat
  gasPrice : Nat
  nonce : Nat
deriving DecidableEq, Repr

/-- Signed-and-sent transaction of the keeper manager, with the contract,
entry point, stringified call arguments and the build parameters. -/
structure EthTx where
  toContract : String
  functionName : String
  args : List String
  gas : Nat
  gasPrice : Nat
  nonce : Nat
deriving DecidableEq, Repr

/-- Confirmation receipt the chain model returns for a submitted
transaction (`wait_for_transaction_receipt`). -/
def confirmationReceipt (tx : EthTx) : TxReceipt := { txNonce := tx.nonce }

/-- Default LINK funding bond of `register_upkeep` (5 LINK). -/
def defaultFundingAmount : Nat := 5 * 10 ^ 18

/-- Mirrors `ChainlinkKeeperManager.register_upkeep`: the LINK balance is
checked against the funding amount first and an insufficient balance raises
before any transaction is signed or sent; otherwise an `approve` transaction
to the LINK token and a `registerUpkeep` transaction to the keeper registry
are submitted in that order, and the upkeep id extracted from the
registration's confirmation receipt is returned. -/
def registerUpkeep (chain : ChainState) (name : String) (targetContract : String)
    (gasLimit : Nat) (checkData : List Nat) (fundingAmount : Nat) :
    Except String Nat × List EthTx :=
  if chain.linkBalance < fundingAmount then
    (Except.error ("Insufficient LINK balance. Need " ++ toString fundingAmount ++
      ", have " ++ toString chain.linkBalance), [])
  else
    let approveTx : EthTx :=
      { toContract := "link_token", functionName := "approve",
        args := ["keeper_registry", toString fundingAmount],
        gas := 100000, gasPrice := chain.gasPrice, nonce := chain.nonce }
    let registerTx : EthTx :=
      { toContract := "keeper_registry", functionName := "registerUpkeep",
        args := [name, "", targetContract, toString gasLimit, "admin",
                 toString checkData, toString fundingAmount, "0"],
        gas := 500000, gasPrice := chain.gasPrice, nonce := chain.nonce + 1 }
    (Except.ok (extractUpkeepIdFromReceipt (confirmationReceipt registerTx)),
     [approveTx, registerTx])

/-- C8: `register_upkeep` fails with the insufficient-funds error before
submitting any transaction whenever the LINK balance is below the required
funding amount; otherwise it submits exactly the approval transaction
followed by the registration transaction and returns the identifier the
receipt parser extracts from the registration's confirmation receipt. -/
theorem register_upkeep_balance_guard (chain : ChainState) (name targetContract : String)
    (gasLimit : Nat) (checkData : List Nat) (fundingAmount : Nat) :
    (chain.linkBalance < fundingAmount →
      (registerUpkeep chain name targetContract gasLimit checkData fundingAmount).1 =
        Except.error ("Insufficient LINK balance. Need " ++ toString fundingAmount ++
          ", have " ++ toString chain.linkBalance) ∧
      (registerUpkeep chain name targetContract gasLimit checkData fundingAmount).2 = []) ∧
    (fundingAmount ≤ chain.linkBalance →
      (registerUpkeep chain name targetContract gasLimit checkData fundingAmount).2.map
          EthTx.functionName = ["approve", "registerUpkeep"] ∧
      ∃ registerTx,
        (registerUpkeep chain name targetContract gasLimit checkData fundingAmount).2.getLast?
          = some registerTx ∧
        (registerUpkeep chain name targetContract gasLimit checkData fundingAmount).1 =
          Except.ok (extractUpkeepIdFromReceipt (confirmationReceipt registerTx))) := by
  constructor
  · intro hlt
    rw [registerUpkeep, if_pos hlt]
    exact ⟨rfl, rfl⟩
  · intro hge
    rw [registerUpkeep, if_neg (by omega)]
    exact ⟨rfl, _, rfl, rfl⟩

/-- C8 witness: the theorem applied to a funded chain state (balance exactly
the 5-LINK default) and to an underfunded one. -/
theorem register_upkeep_balance_guard_witness :
    ((1000 : Nat) < defaultFundingAmount ∧
      (registerUpkeep { linkBalance := 1000, gasPrice := 30, nonce := 7 } "vault_rebalance"
          "0xV" 500000 [] defaultFundingAmount).1 =
        Except.error ("Insufficient LINK balance. Need " ++ toString defaultFundingAmount ++
          ", have " ++ toString (1000 : Nat)) ∧
      (registerUpkeep { linkBalance := 1000, gasPrice := 30, nonce := 7 } "vault_rebalance"
          "0xV" 500000 [] defaultFundingAmount).2 = []) ∧
    (defaultFundingAmount ≤ defaultFundingAmount ∧
      (registerUpkeep { linkBalance := defaultFundingAmount, gasPrice := 30, nonce := 7 }
          "vault_rebalance" "0xV" 500000 [] defaultFundingAmount).2.map EthTx.functionName
        = ["approve", "registerUpkeep"]) := by
  have hlow := (register_upkeep_balance_guard
    { linkBalance := 1000, gasPrice := 30, nonce := 7 } "vault_rebalance" "0xV" 500000 []
    defaultFundingAmount).1 (by norm_num [defaultFundingAmount])
  have hhigh := (register_upkeep_balance_guard
    { linkBalance := defaultFundingAmount, gasPrice := 30, nonce := 7 } "vault_rebalance"
    "0xV" 500000 [] defaultFundingAmount).2 (le_refl _)
  exact ⟨⟨by norm_num [defaultFundingAmount], hlow.1, hlow.2⟩, ⟨le_refl _, hhigh.1⟩⟩

lemma applyStep_gas_fees (m : ExecutionMetrics) (step : MetricsStep) :
    (applyStep m step).total_gas_used = m.total_gas_used ∧
    (applyStep m step).total_fees_paid = m.total_fees_paid := by
  cases step with
  | chainlink s =>
    simp only [applyStep, updateMetricsFromChainlink]
    cases s.last_execution with
    | none => exact ⟨rfl, rfl⟩
    | some lastExec =>
      dsimp only
      split <;> exact ⟨rfl, rfl⟩
  | gelato t =>
    simp only [applyStep, updateMetricsFromGelato]
    cases t.last_execution with
    | none =>
      dsimp only
      split <;> exact ⟨rfl, rfl⟩
    | some lastExec =>
      dsimp only
      split <;> exact ⟨rfl, rfl⟩

lemma applySteps_gas_fees (m : ExecutionMetrics) (steps : List MetricsStep) :
    (applySteps m steps).total_gas_used = m.total_gas_used ∧
    (applySteps m steps).total_fees_paid = m.total_fees_paid := by
  induction steps generalizing m with
  | nil => exact ⟨rfl, rfl⟩
  | cons step rest ih =>
    have h1 := applyStep_gas_fees m step
    have h2 := ih (applyStep m step)
    exact ⟨h2.1.trans h1.1, h2.2.trans h1.2⟩

/-- Metrics states reachable from the zero initialization of `add_job` by
Chainlink and Gelato metrics-update steps. -/
def ReachableMetrics (m : ExecutionMetrics) : Prop :=
  ∃ steps : List MetricsStep, applySteps zeroMetrics steps = m

/-- Total gas across all jobs as summed by `get_performance_report`. -/
def perfTotalGasUsed (ms : List (String × ExecutionMetrics)) : Int :=
  (ms.map (fun p => p.2.total_gas_used)).sum

/-- Total fees across all jobs as summed by `get_performance_report`. -/
def perfTotalFeesPaid (ms : List (String × ExecutionMetrics)) : Int :=
  (ms.map (fun p => p.2.total_fees_paid)).sum

/-- C9: no metrics-update path ever touches `total_gas_used` or
`total_fees_paid`, so in every reachable metrics state both counters are
exactly 0, and both the per-job gas/fee figures of `get_job_status` (which
report the fields directly) and the totals of `get_performance_report` are
0 for every orchestrator state whose metrics are all reachable. -/
theorem gas_and_fees_always_zero :
    (∀ m : ExecutionMetrics, ReachableMetrics m →
      m.total_gas_used = 0 ∧ m.total_fees_paid = 0) ∧
    (∀ st : OrchState, (∀ p ∈ st.metrics, ReachableMetrics p.2) →
      perfTotalGasUsed st.metrics = 0 ∧ perfTotalFeesPaid st.metrics = 0) := by
  have base : ∀ m : ExecutionMetrics, ReachableMetrics m →
      m.total_gas_used = 0 ∧ m.total_fees_paid = 0 := by
    rintro m ⟨steps, rfl⟩
    have h := applySteps_gas_fees zeroMetrics steps
    simpa [zeroMetrics] using h
  refine ⟨base, ?_⟩
  intro st hreach
  constructor
  · simp only [perfTotalGasUsed]
    rw [List.sum_eq_zero]
    intro x hx
    rcases List.mem_map.mp hx with ⟨p, hp, rfl⟩
    exact (base p.2 (hreach p hp)).1
  · simp only [perfTotalFeesPaid]
    rw [List.sum_eq_zero]
    intro x hx
    rcases List.mem_map.mp hx with ⟨p, hp, rfl⟩
    exact (base p.2 (hreach p hp)).2

/-- Gelato summary update used in the C9 witness: three executions reported
with success rate 2/3. -/
def sampleGelatoStep : MetricsStep :=
  MetricsStep.gelato { execution_count := 3, success_rate := 2 / 3,
                       last_execution := some 500 }

/-- Metrics reached in the C9 witness by one Gelato summary update. -/
def sampleGelatoMetrics : ExecutionMetrics := applySteps zeroMetrics [sampleGelatoStep]

/-- Orchestrator state of the C9 witness. -/
def sampleMetricsState : OrchState := { metrics := [("job_a", sampleGelatoMetrics)] }

/-- C9 witness: the theorem applied to the concrete reachable metrics and the
concrete one-job state. -/
theorem gas_and_fees_always_zero_witness :
    sampleGelatoMetrics.total_gas_used = 0 ∧ sampleGelatoMetrics.total_fees_paid = 0 ∧
    perfTotalGasUsed sampleMetricsState.metrics = 0 ∧
    perfTotalFeesPaid sampleMetricsState.metrics = 0 := by
  have h1 := gas_and_fees_always_zero.1 sampleGelatoMetrics ⟨[sampleGelatoStep], rfl⟩
  have h2 := gas_and_fees_always_zero.2 sampleMetricsState (by
    intro p hp
    simp only [sampleMetricsState, List.mem_singleton] at hp
    rw [hp]
    exact ⟨[sampleGelatoStep], rfl⟩)
  exact ⟨h1.1, h1.2, h2.1, h2.2⟩

/-- Success rate of one job as computed by `get_job_status`: guarded by
`total_executions > 0` and reported as 0 otherwise. -/
def statusSuccessRate (m : ExecutionMetrics) : Rat :=
  if 0 < m.total_executions then
    (m.successful_executions : Rat) / (m.total_executions : Rat)
  else 0

/-- Total executions across all jobs as summed by `get_performance_report`. -/
def perfTotalExecutions (ms : List (String × ExecutionMetrics)) : Int :=
  (ms.map (fun p => p.2.total_executions)).sum

/-- Total successful executions across all jobs as summed by
`get_performance_report`. -/
def perfTotalSuccessful (ms : List (String × ExecutionMetrics)) : Int :=
  (ms.map (fun p => p.2.successful_executions)).sum

/-- Overall success rate of `get_performance_report`: guarded by
`total_executions > 0` and reported as 0 otherwise. -/
def reportOverallSuccessRate (ms : List (String × ExecutionMetrics)) : Rat :=
  if 0 < perfTotalExecutions ms then
    (perfTotalSuccessful ms : Rat) / (perfTotalExecutions ms : Rat)
  else 0

/-- Average gas per execution of `get_performance_report`: guarded by
`total_executions > 0` and reported as 0 otherwise. -/
def reportAverageGasPerExecution (ms : List (String × ExecutionMetrics)) : Rat :=
  if 0 < perfTotalExecutions ms then
    (perfTotalGasUsed ms : Rat) / (perfTotalExecutions ms : Rat)
  else 0

/-- Per-job success rate of `get_performance_report`'s `job_metrics` block:
guarded by `total_executions > 0` and reported as 0 otherwise. -/
def reportJobSuccessRate (m : ExecutionMetrics) : Rat :=
  if 0 < m.total_executions then
    (m.successful_executions : Rat) / (m.total_executions : Rat)
  else 0

/-- Per-job gas efficiency of `get_performance_report`'s `job_metrics` block:
guarded by `total_executions > 0` and reported as 0 otherwise. -/
def reportJobGasEfficiency (m : ExecutionMetrics) : Rat :=
  if 0 < m.total_executions then
    (m.total_gas_used : Rat) / (m.total_executions : Rat)
  else 0

/-- C10: every success-rate and per-execution-average ratio computed by
`get_job_status` and `get_performance_report` is guarded by a positivity
check of the corresponding `total_executions`: when that total is zero the
reported figure is 0 (no division is performed), and when it is positive the
reported figure is the actual ratio — so both queries are total on every
state, including jobs with no executions. -/
theorem report_ratios_guarded :
    (∀ m : ExecutionMetrics, m.total_executions = 0 →
      statusSuccessRate m = 0 ∧ reportJobSuccessRate m = 0 ∧
      reportJobGasEfficiency m = 0) ∧
    (∀ m : ExecutionMetrics, 0 < m.total_executions →
      statusSuccessRate m = (m.successful_executions : Rat) / (m.total_executions : Rat) ∧
      reportJobSuccessRate m = (m.successful_executions : Rat) / (m.total_executions : Rat) ∧
      reportJobGasEfficiency m = (m.total_gas_used : Rat) / (m.total_executions : Rat)) ∧
    (∀ ms : List (String × ExecutionMetrics), perfTotalExecutions ms = 0 →
      reportOverallSuccessRate ms = 0 ∧ reportAverageGasPerExecution ms = 0) ∧
    (∀ ms : List (String × ExecutionMetrics), 0 < perfTotalExecutions ms →
      reportOverallSuccessRate ms =
        (perfTotalSuccessful ms : Rat) / (perfTotalExecutions ms : Rat) ∧
      reportAverageGasPerExecution ms =
        (perfTotalGasUsed ms : Rat) / (perfTotalExecutions ms : Rat)) := by
  refine ⟨?_, ?_, ?_, ?_⟩
  · intro m h
    rw [statusSuccessRate, reportJobSuccessRate, reportJobGasEfficiency, h]
    exact ⟨rfl, rfl, rfl⟩
  · intro m h
    simp [statusSuccessRate, reportJobSuccessRate, reportJobGasEfficiency, if_pos h]
  · intro ms h
    rw [reportOverallSuccessRate, reportAverageGasPerExecution, h]
    exact ⟨rfl, rfl⟩
  · intro ms h
    simp [reportOverallSuccessRate, reportAverageGasPerExecution, if_pos h]

/-- Metrics with recorded executions used in the positive case of the C10
witness. -/
def busyMetrics : ExecutionMetrics :=
  { total_executions := 4, successful_executions := 3, failed_executions := 1,
    total_gas_used := 200 }

/-- C10 witness: the theorem applied to zeroed metrics (a job with no
executions reports 0, with no division), to metrics with four executions, to
the empty report, and to a one-job report. -/
theorem report_ratios_guarded_witness :
    (statusSuccessRate zeroMetrics = 0 ∧ reportJobSuccessRate zeroMetrics = 0 ∧
      reportJobGasEfficiency zeroMetrics = 0) ∧
    (statusSuccessRate busyMetrics = (3 : Rat) / 4 ∧
      reportJobGasEfficiency busyMetrics = (200 : Rat) / 4) ∧
    (reportOverallSuccessRate [] = 0 ∧ reportAverageGasPerExecution [] = 0) ∧
    reportOverallSuccessRate [("job_b", busyMetrics)] = (3 : Rat) / 4 := by
  have h0 := report_ratios_guarded.1 zeroMetrics rfl
  have h1 := report_ratios_guarded.2.1 busyMetrics (by norm_num [busyMetrics])
  have h2 := report_ratios_guarded.2.2.1 [] rfl
  have h3 := report_ratios_guarded.2.2.2 [("job_b", busyMetrics)]
    (by norm_num [perfTotalExecutions, busyMetrics])
  refine ⟨h0, ⟨?_, ?_⟩, h2, ?_⟩
  · rw [h1.1]; norm_num [busyMetrics]
  · rw [h1.2.2]; norm_num [busyMetrics]
  · rw [h3.1]
    norm_num [perfTotalSuccessful, perfTotalExecutions, busyMetrics]

end YieldFarm
